import Mathlib

/-!
Verification of the Pie-Brain plugin-admission pipeline and dispatcher.

Shallow embedding of the Python sources:
 - `src/guardian/sanitizer.py` (command sanitizer),
 - `src/guardian/interface_check.py` (structural validator),
 - `src/guardian/smoke_test.py` (behavioral smoke tester),
 - `src/guardian/watcher.py` (hot-module watcher),
 - `src/core/router.py` (retrying classifier router),
 - `src/core/engine.py` and `src/core/db.py` (dispatcher and task model).

Strings are processed as `List Char`; Python `re` patterns used by the code
are modelled as explicit scanning functions over character lists.
-/

namespace PieBrain

/-! ## Character/string utilities -/

/-- The single-quote character (written via its code point). -/
def squote : Char := Char.ofNat 39

/-- The double-quote character. -/
def dquote : Char := Char.ofNat 34

/-- The backslash character. -/
def bslash : Char := Char.ofNat 92

/-- The backtick character. -/
def btick : Char := Char.ofNat 96

/-- `startsList pre s` is true when `pre` is an initial segment of `s`. -/
def startsList : List Char → List Char → Bool
  | [], _ => true
  | _ :: _, [] => false
  | a :: as, b :: bs => a = b && startsList as bs

/-- `containsSeq pat s`: the character sequence `pat` occurs somewhere in `s`
(models `re.search` for a fixed literal pattern). -/
def containsSeq (pat : List Char) : List Char → Bool
  | [] => startsList pat []
  | c :: rest => startsList pat (c :: rest) || containsSeq pat rest

/-- Python `str.strip()` on a character list: drop whitespace at both ends. -/
def trimChars (cs : List Char) : List Char :=
  ((cs.dropWhile Char.isWhitespace).reverse.dropWhile Char.isWhitespace).reverse

/-- Python truthiness test `not s.strip()`: the string is empty or whitespace. -/
def isBlank (s : String) : Bool := s.toList.all Char.isWhitespace

/-! ## Command sanitizer — `src/guardian/sanitizer.py` -/

/-- `_CMD_SUBSTITUTION_RE = re.compile(r"\$\(|`")`: a literal `$(` or a
backtick anywhere in the string. -/
def cmdSubstitutionMatch (s : List Char) : Bool :=
  containsSeq ("$(".toList) s || containsSeq [btick] s

/-- `_RECURSIVE_SPAWN_RE = re.compile(r"core[./]engine")`. -/
def recursiveSpawnMatch (s : List Char) : Bool :=
  containsSeq ("core.engine".toList) s || containsSeq ("core/engine".toList) s

/-- The protected path words of `_SYSTEM_PATH_WRITE_RE`. -/
def sysPathWords : List (List Char) :=
  ["etc".toList, "usr".toList, "sys".toList, "proc".toList, "root".toList]

/-- After the protected word the pattern `(?:[/ \t]|$)` requires a slash,
space, tab, or end of string. -/
def sysPathAfterOk : List Char → Bool
  | [] => true
  | c :: _ => c = '/' || c = ' ' || c = '\t'

/-- Does a `_SYSTEM_PATH_WRITE_RE` match start at this position? -/
def sysPathHere (s : List Char) : Bool :=
  match s with
  | '/' :: rest =>
      sysPathWords.any (fun w => startsList w rest && sysPathAfterOk (rest.drop w.length))
  | _ => false

/-- `_SYSTEM_PATH_WRITE_RE = re.compile(r"/(etc|usr|sys|proc|root)(?:[/ \t]|$)")`. -/
def systemPathMatch : List Char → Bool
  | [] => false
  | c :: rest => sysPathHere (c :: rest) || systemPathMatch rest

/-- `_SHELL_OPERATOR_RE = re.compile(r"\||\;|&&|\|\|")`: a pipe, a semicolon,
`&&`, or `||` (the last alternative is subsumed by the first). -/
def shellOperatorMatch (s : List Char) : Bool :=
  containsSeq ['|'] s || containsSeq [';'] s ||
    containsSeq ['&', '&'] s || containsSeq ['|', '|'] s

/-- The loop of `_tokenize_unquoted`, carrying the `in_single`/`in_double`
flags and the current buffer (kept reversed).  Mirrors the Python loop:
inside single quotes nothing is special; inside double quotes a backslash
skips the next character and an unescaped `"` closes the region; in unquoted
context a quote character flushes the buffer as a separate token. -/
def tokenizeAux : Bool → Bool → List Char → List Char → List (List Char)
  | _, _, [], buf => [buf.reverse]
  | true, in_d, ch :: rest, buf =>
      if ch = squote then tokenizeAux false in_d rest buf
      else tokenizeAux true in_d rest buf
  | false, true, ch :: rest, buf =>
      if ch = bslash then
        match rest with
        | _ :: rest2 => tokenizeAux false true rest2 buf
        | [] => tokenizeAux false true [] buf
      else if ch = dquote then tokenizeAux false false rest buf
      else tokenizeAux false true rest buf
  | false, false, ch :: rest, buf =>
      if ch = squote then buf.reverse :: tokenizeAux true false rest []
      else if ch = dquote then buf.reverse :: tokenizeAux false true rest []
      else tokenizeAux false false rest (ch :: buf)

/-- `_tokenize_unquoted(cmd)`: the unquoted portions of `cmd`, in order. -/
def tokenize_unquoted (cmd : List Char) : List (List Char) :=
  tokenizeAux false false cmd []

/-- `"".join(_tokenize_unquoted(cmd))` as used by `check_spawn_cmd`. -/
def unquotedText (cmd : List Char) : List Char :=
  (tokenize_unquoted cmd).flatten

/-- `SanitizeResult` dataclass. -/
structure SanitizeResult where
  ok : Bool
  violations : List String
  deriving Repr, DecidableEq

/-- Violation message of rule 1. -/
def substitutionMsg : String := "command substitution ($(...) or backtick) is not allowed"

/-- Violation message of rule 2. -/
def recursiveMsg : String := "recursive engine spawn (core.engine / core/engine) is not allowed"

/-- Violation message of rule 3. -/
def systemPathMsg : String := "write to system path (/etc, /usr, /sys, /proc, /root) is not allowed"

/-- Violation message of rule 4. -/
def shellOperatorMsg : String := "shell operator (|, ;, &&, ||) in unquoted context is not allowed"

/-- `check_spawn_cmd(cmd)`: evaluates the four independent rules, collects
every violation in order, and reports `ok` iff the list is empty. -/
def check_spawn_cmd (cmd : String) : SanitizeResult :=
  let cs := cmd.toList
  let v1 := if cmdSubstitutionMatch cs then [substitutionMsg] else []
  let v2 := if recursiveSpawnMatch cs then [recursiveMsg] else []
  let v3 := if systemPathMatch cs then [systemPathMsg] else []
  let v4 := if shellOperatorMatch (unquotedText cs) then [shellOperatorMsg] else []
  let violations := v1 ++ v2 ++ v3 ++ v4
  { ok := violations.length = 0, violations := violations }

/-! ## Spec-side quote tracking (for the refinement claim about rule 4)

The specification describes quote tracking in prose; the following scanner is
written from those words (left-to-right; nothing special inside single
quotes; inside double quotes a backslash escapes the next character and an
unescaped double quote ends the region; an unterminated quote counts as
still quoted), to be compared with the code's `_tokenize_unquoted`. -/

/-- Quote-tracking state of the specification's scanner. -/
inductive QState where
  | unquoted
  | single
  | double
  deriving Repr, DecidableEq

/-- Spec-side scanner: the characters of the command that lie outside every
quoted region (quote delimiters themselves excluded). -/
def specUnquotedChars : QState → List Char → List Char
  | _, [] => []
  | .unquoted, c :: rest =>
      if c = squote then specUnquotedChars .single rest
      else if c = dquote then specUnquotedChars .double rest
      else c :: specUnquotedChars .unquoted rest
  | .single, c :: rest =>
      if c = squote then specUnquotedChars .unquoted rest
      else specUnquotedChars .single rest
  | .double, c :: rest =>
      if c = bslash then
        match rest with
        | _ :: rest2 => specUnquotedChars .double rest2
        | [] => []
      else if c = dquote then specUnquotedChars .unquoted rest
      else specUnquotedChars .double rest

/-- Spec-side predicate: some occurrence of a pipe, semicolon, `&&` or `||`
in the command starts at a position that is not inside a quoted region.
(A `||` occurrence starts with a `|` occurrence, so `|` covers it.) -/
def specOpOutsideQuotes : QState → List Char → Bool
  | _, [] => false
  | .unquoted, c :: rest =>
      if c = '|' then true
      else if c = ';' then true
      else if c = '&' && rest.headD ' ' = '&' then true
      else if c = squote then specOpOutsideQuotes .single rest
      else if c = dquote then specOpOutsideQuotes .double rest
      else specOpOutsideQuotes .unquoted rest
  | .single, c :: rest =>
      if c = squote then specOpOutsideQuotes .unquoted rest
      else specOpOutsideQuotes .single rest
  | .double, c :: rest =>
      if c = bslash then
        match rest with
        | _ :: rest2 => specOpOutsideQuotes .double rest2
        | [] => false
      else if c = dquote then specOpOutsideQuotes .unquoted rest
      else specOpOutsideQuotes .double rest

/-- Map the code's two boolean flags (checked in the order of the Python
loop: `in_single` first) to the spec scanner's state. -/
def qstateOf (in_s in_d : Bool) : QState :=
  if in_s then .single else if in_d then .double else .unquoted

theorem squote_ne_dquote : squote ≠ dquote := by decide

theorem dquote_ne_squote : dquote ≠ squote := by decide

theorem dquote_ne_bslash : dquote ≠ bslash := by decide

/-- The code's tokenizer, joined, produces exactly the spec scanner's
unquoted characters (for the flag combinations reachable from the initial
state, i.e. not both flags set). -/
theorem tokenizeAux_flatten :
    ∀ (in_s in_d : Bool) (cmd buf : List Char), ¬(in_s = true ∧ in_d = true) →
      (tokenizeAux in_s in_d cmd buf).flatten =
        buf.reverse ++ specUnquotedChars (qstateOf in_s in_d) cmd := by
  intro in_s in_d cmd buf
  induction in_s, in_d, cmd, buf using tokenizeAux.induct with
  | case1 x x1 buf =>
      intro _
      cases x <;> cases x1 <;> simp [tokenizeAux.eq_1, specUnquotedChars, qstateOf]
  | case2 in_d rest buf ih =>
      intro h
      have hd : in_d = false := by simpa using h
      subst hd
      have ih' := ih (by simp)
      rw [tokenizeAux.eq_2, if_pos rfl]
      simp only [qstateOf] at ih' ⊢
      simpa [specUnquotedChars] using ih'
  | case3 in_d ch rest buf hne ih =>
      intro h
      have hd : in_d = false := by simpa using h
      subst hd
      have ih' := ih (by simp)
      rw [tokenizeAux.eq_2, if_neg hne]
      simp only [qstateOf] at ih' ⊢
      simpa [specUnquotedChars, hne] using ih'
  | case4 buf head rest2 ih =>
      intro _
      have ih' := ih (by simp)
      rw [tokenizeAux.eq_3, if_pos rfl]
      simp only [qstateOf] at ih' ⊢
      simpa [specUnquotedChars] using ih'
  | case5 buf ih =>
      intro _
      rw [tokenizeAux.eq_4, if_pos rfl]
      simp [tokenizeAux.eq_1, specUnquotedChars, qstateOf]
  | case6 rest buf _ ih =>
      intro _
      have ih' := ih (by simp)
      simp only [qstateOf] at ih' ⊢
      cases rest with
      | nil =>
          rw [tokenizeAux.eq_4, if_neg dquote_ne_bslash, if_pos rfl]
          simpa [specUnquotedChars, dquote_ne_bslash] using ih'
      | cons c2 rest2 =>
          rw [tokenizeAux.eq_3, if_neg dquote_ne_bslash, if_pos rfl]
          simpa [specUnquotedChars, dquote_ne_bslash] using ih'
  | case7 ch rest buf h1 h2 ih =>
      intro _
      have ih' := ih (by simp)
      simp only [qstateOf] at ih' ⊢
      cases rest with
      | nil =>
          rw [tokenizeAux.eq_4, if_neg h1, if_neg h2]
          simpa [specUnquotedChars, h1, h2] using ih'
      | cons c2 rest2 =>
          rw [tokenizeAux.eq_3, if_neg h1, if_neg h2]
          simpa [specUnquotedChars, h1, h2] using ih'
  | case8 rest buf ih =>
      intro _
      have ih' := ih (by simp)
      rw [tokenizeAux.eq_5, if_pos rfl]
      simp only [qstateOf] at ih' ⊢
      simp only [List.flatten_cons, ih']
      simp [specUnquotedChars]
  | case9 rest buf _ ih =>
      intro _
      have ih' := ih (by simp)
      rw [tokenizeAux.eq_5, if_neg dquote_ne_squote, if_pos rfl]
      simp only [qstateOf] at ih' ⊢
      simp only [List.flatten_cons, ih']
      simp [specUnquotedChars, dquote_ne_squote]
  | case10 ch rest buf h1 h2 ih =>
      intro _
      have ih' := ih (by simp)
      rw [tokenizeAux.eq_5, if_neg h1, if_neg h2]
      simp only [qstateOf] at ih' ⊢
      simp [ih', specUnquotedChars, h1, h2, List.reverse_cons]

/-- Specialization to the initial state: the joined unquoted text scanned by
rule 4 of `check_spawn_cmd` equals the spec scanner's unquoted characters. -/
theorem unquotedText_eq_spec (cmd : List Char) :
    unquotedText cmd = specUnquotedChars .unquoted cmd := by
  have h := tokenizeAux_flatten false false cmd [] (by simp)
  simpa [unquotedText, tokenize_unquoted, qstateOf] using h

/-! ### Bridging lemmas between literal scanning and membership -/

theorem containsSeq_cons_of_tail {pat : List Char} {c : Char} {s : List Char}
    (h : containsSeq pat s = true) : containsSeq pat (c :: s) = true := by
  simp [containsSeq, h]

theorem containsSeq_single_iff {c : Char} :
    ∀ {s : List Char}, containsSeq [c] s = true ↔ c ∈ s := by
  intro s
  induction s with
  | nil => simp [containsSeq, startsList]
  | cons x t ih => simp [containsSeq, startsList, ih]

theorem mem_of_containsSeq_cons {c : Char} {cs : List Char} :
    ∀ {s : List Char}, containsSeq (c :: cs) s = true → c ∈ s := by
  intro s
  induction s with
  | nil => simp [containsSeq, startsList]
  | cons x t ih =>
      intro h
      simp only [containsSeq, Bool.or_eq_true, startsList, Bool.and_eq_true,
        decide_eq_true_eq] at h
      rcases h with ⟨rfl, -⟩ | h
      · exact List.mem_cons_self _ _
      · exact List.mem_cons_of_mem _ (ih h)

theorem shellOperatorMatch_cons {l : List Char} (c : Char)
    (h : shellOperatorMatch l = true) : shellOperatorMatch (c :: l) = true := by
  simp only [shellOperatorMatch, Bool.or_eq_true] at h ⊢
  rcases h with ((h | h) | h) | h
  · exact Or.inl (Or.inl (Or.inl (containsSeq_cons_of_tail h)))
  · exact Or.inl (Or.inl (Or.inr (containsSeq_cons_of_tail h)))
  · exact Or.inl (Or.inr (containsSeq_cons_of_tail h))
  · exact Or.inr (containsSeq_cons_of_tail h)

/-- In the double-quoted state an ordinary character is dropped. -/
theorem specUnquoted_double_cons {c : Char} (h1 : ¬c = bslash) (h2 : ¬c = dquote)
    (rest : List Char) :
    specUnquotedChars .double (c :: rest) = specUnquotedChars .double rest := by
  cases rest with
  | nil => rw [specUnquotedChars.eq_5, if_neg h1, if_neg h2]
  | cons a t => rw [specUnquotedChars.eq_4, if_neg h1, if_neg h2]

/-- In the double-quoted state an unescaped double quote ends the region. -/
theorem specUnquoted_double_dq (rest : List Char) :
    specUnquotedChars .double (dquote :: rest) = specUnquotedChars .unquoted rest := by
  cases rest with
  | nil => rw [specUnquotedChars.eq_5, if_neg dquote_ne_bslash, if_pos rfl]
  | cons a t => rw [specUnquotedChars.eq_4, if_neg dquote_ne_bslash, if_pos rfl]

/-- Operator scanning ignores ordinary characters in the double-quoted state. -/
theorem specOp_double_cons {c : Char} (h1 : ¬c = bslash) (h2 : ¬c = dquote)
    (rest : List Char) :
    specOpOutsideQuotes .double (c :: rest) = specOpOutsideQuotes .double rest := by
  cases rest with
  | nil => rw [specOpOutsideQuotes.eq_5, if_neg h1, if_neg h2]
  | cons a t => rw [specOpOutsideQuotes.eq_4, if_neg h1, if_neg h2]

/-- Operator scanning leaves the double-quoted state on an unescaped quote. -/
theorem specOp_double_dq (rest : List Char) :
    specOpOutsideQuotes .double (dquote :: rest) = specOpOutsideQuotes .unquoted rest := by
  cases rest with
  | nil => rw [specOpOutsideQuotes.eq_5, if_neg dquote_ne_bslash, if_pos rfl]
  | cons a t => rw [specOpOutsideQuotes.eq_4, if_neg dquote_ne_bslash, if_pos rfl]

/-- When the spec scanner finds no unquoted operator occurrence, neither a
pipe nor a semicolon survives into the unquoted character sequence. -/
theorem specOp_false_no_ops :
    ∀ (st : QState) (cmd : List Char), specOpOutsideQuotes st cmd = false →
      ¬ '|' ∈ specUnquotedChars st cmd ∧ ¬ ';' ∈ specUnquotedChars st cmd := by
  intro st cmd
  induction st, cmd using specOpOutsideQuotes.induct with
  | case1 x => simp [specUnquotedChars.eq_1]
  | case2 rest =>
      intro h
      rw [specOpOutsideQuotes.eq_2, if_pos rfl] at h
      exact absurd h (by simp)
  | case3 rest h1 =>
      intro h
      rw [specOpOutsideQuotes.eq_2, if_neg h1, if_pos rfl] at h
      exact absurd h (by simp)
  | case4 c rest h1 h2 h3 =>
      intro h
      rw [specOpOutsideQuotes.eq_2, if_neg h1, if_neg h2, if_pos h3] at h
      exact absurd h (by simp)
  | case5 rest h1 h2 h3 ih =>
      intro h
      rw [specOpOutsideQuotes.eq_2, if_neg h1, if_neg h2, if_neg h3, if_pos rfl] at h
      rw [specUnquotedChars.eq_2, if_pos rfl]
      exact ih h
  | case6 rest h1 h2 h3 h4 ih =>
      intro h
      rw [specOpOutsideQuotes.eq_2, if_neg h1, if_neg h2, if_neg h3, if_neg h4,
        if_pos rfl] at h
      rw [specUnquotedChars.eq_2, if_neg dquote_ne_squote, if_pos rfl]
      exact ih h
  | case7 c rest h1 h2 h3 h4 h5 ih =>
      intro h
      rw [specOpOutsideQuotes.eq_2, if_neg h1, if_neg h2, if_neg h3, if_neg h4,
        if_neg h5] at h
      rw [specUnquotedChars.eq_2, if_neg h4, if_neg h5]
      obtain ⟨hp, hs⟩ := ih h
      constructor
      · intro hm
        rcases List.mem_cons.mp hm with hm | hm
        · exact h1 hm.symm
        · exact hp hm
      · intro hm
        rcases List.mem_cons.mp hm with hm | hm
        · exact h2 hm.symm
        · exact hs hm
  | case8 rest ih =>
      intro h
      rw [specOpOutsideQuotes.eq_3, if_pos rfl] at h
      rw [specUnquotedChars.eq_3, if_pos rfl]
      exact ih h
  | case9 c rest h1 ih =>
      intro h
      rw [specOpOutsideQuotes.eq_3, if_neg h1] at h
      rw [specUnquotedChars.eq_3, if_neg h1]
      exact ih h
  | case10 head rest2 ih =>
      intro h
      rw [specOpOutsideQuotes.eq_4, if_pos rfl] at h
      rw [specUnquotedChars.eq_4, if_pos rfl]
      exact ih h
  | case11 =>
      intro h
      rw [specUnquotedChars.eq_5, if_pos rfl]
      simp
  | case12 rest h1 ih =>
      intro h
      rw [specOp_double_dq] at h
      rw [specUnquoted_double_dq]
      exact ih h
  | case13 c rest h1 h2 ih =>
      intro h
      rw [specOp_double_cons h1 h2] at h
      rw [specUnquoted_double_cons h1 h2]
      exact ih h

/-- When the spec scanner finds an unquoted operator occurrence, rule 4's
regex matches the joined unquoted text. -/
theorem specOp_true_operator :
    ∀ (st : QState) (cmd : List Char), specOpOutsideQuotes st cmd = true →
      shellOperatorMatch (specUnquotedChars st cmd) = true := by
  intro st cmd
  induction st, cmd using specOpOutsideQuotes.induct with
  | case1 x =>
      intro h
      rw [specOpOutsideQuotes.eq_1] at h
      exact absurd h (by simp)
  | case2 rest =>
      intro _
      rw [specUnquotedChars.eq_2, if_neg (by decide), if_neg (by decide)]
      simp [shellOperatorMatch, containsSeq, startsList]
  | case3 rest h1 =>
      intro _
      rw [specUnquotedChars.eq_2, if_neg (by decide), if_neg (by decide)]
      simp [shellOperatorMatch, containsSeq, startsList]
  | case4 c rest h1 h2 h3 =>
      intro _
      simp only [Bool.and_eq_true, decide_eq_true_eq] at h3
      obtain ⟨rfl, hh⟩ := h3
      cases rest with
      | nil => simp at hh
      | cons r2 t =>
          simp only [List.headD_cons] at hh
          subst hh
          rw [specUnquotedChars.eq_2, if_neg (by decide), if_neg (by decide),
            specUnquotedChars.eq_2, if_neg (by decide), if_neg (by decide)]
          simp [shellOperatorMatch, containsSeq, startsList]
  | case5 rest h1 h2 h3 ih =>
      intro h
      rw [specOpOutsideQuotes.eq_2, if_neg h1, if_neg h2, if_neg h3, if_pos rfl] at h
      rw [specUnquotedChars.eq_2, if_pos rfl]
      exact ih h
  | case6 rest h1 h2 h3 h4 ih =>
      intro h
      rw [specOpOutsideQuotes.eq_2, if_neg h1, if_neg h2, if_neg h3, if_neg h4,
        if_pos rfl] at h
      rw [specUnquotedChars.eq_2, if_neg dquote_ne_squote, if_pos rfl]
      exact ih h
  | case7 c rest h1 h2 h3 h4 h5 ih =>
      intro h
      rw [specOpOutsideQuotes.eq_2, if_neg h1, if_neg h2, if_neg h3, if_neg h4,
        if_neg h5] at h
      rw [specUnquotedChars.eq_2, if_neg h4, if_neg h5]
      exact shellOperatorMatch_cons c (ih h)
  | case8 rest ih =>
      intro h
      rw [specOpOutsideQuotes.eq_3, if_pos rfl] at h
      rw [specUnquotedChars.eq_3, if_pos rfl]
      exact ih h
  | case9 c rest h1 ih =>
      intro h
      rw [specOpOutsideQuotes.eq_3, if_neg h1] at h
      rw [specUnquotedChars.eq_3, if_neg h1]
      exact ih h
  | case10 head rest2 ih =>
      intro h
      rw [specOpOutsideQuotes.eq_4, if_pos rfl] at h
      rw [specUnquotedChars.eq_4, if_pos rfl]
      exact ih h
  | case11 =>
      intro h
      rw [specOpOutsideQuotes.eq_5, if_pos rfl] at h
      exact absurd h (by simp)
  | case12 rest h1 ih =>
      intro h
      rw [specOp_double_dq] at h
      rw [specUnquoted_double_dq]
      exact ih h
  | case13 c rest h1 h2 ih =>
      intro h
      rw [specOp_double_cons h1 h2] at h
      rw [specUnquoted_double_cons h1 h2]
      exact ih h

/-- `ok` of `check_spawn_cmd` is true exactly when all four rules pass. -/
theorem check_ok_true_iff (cmd : String) :
    (check_spawn_cmd cmd).ok = true ↔
      cmdSubstitutionMatch cmd.toList = false ∧
      recursiveSpawnMatch cmd.toList = false ∧
      systemPathMatch cmd.toList = false ∧
      shellOperatorMatch (unquotedText cmd.toList) = false := by
  simp only [check_spawn_cmd]
  split_ifs <;> simp_all

/-- Scenario A command: `claude --print 'grep foo | bar'`. -/
def scenarioA : String :=
  String.mk ("claude --print ".toList ++ [squote] ++ "grep foo | bar".toList ++ [squote])

/-- The command `&'x'&`: it contains no pipe, semicolon, `&&` or `||` at all,
but the sanitizer joins the unquoted segments, reading the two isolated `&`
characters as `&&`. -/
def joinArtifactCmd : String := String.mk ['&', squote, 'x', squote, '&']

/-- C3: any command containing a literal `$(` or a backtick anywhere — also
inside quoted regions, since the containment test is position-blind — is
rejected by `check_spawn_cmd`, and for `echo $(whoami)` the result carries
the substitution violation message. -/
theorem C3_substitution_always_blocked :
    (∀ cmd : String,
        containsSeq ("$(".toList) cmd.toList = true ∨ containsSeq [btick] cmd.toList = true →
        (check_spawn_cmd cmd).ok = false)
    ∧ (check_spawn_cmd ("echo $(whoami)")).ok = false
    ∧ substitutionMsg ∈ (check_spawn_cmd ("echo $(whoami)")).violations := by
  refine ⟨?_, by decide, by decide⟩
  intro cmd h
  have hs : cmdSubstitutionMatch cmd.toList = true := by
    simp only [cmdSubstitutionMatch, Bool.or_eq_true]
    exact h
  cases h' : (check_spawn_cmd cmd).ok with
  | false => rfl
  | true =>
      have := ((check_ok_true_iff cmd).mp h').1
      rw [this] at hs
      exact absurd hs (by simp)

/-- C3 witness: the universal part applied at `echo $(whoami)`. -/
theorem C3_witness : (check_spawn_cmd ("echo $(whoami)")).ok = false :=
  C3_substitution_always_blocked.1 ("echo $(whoami)") (Or.inl (by decide))

/-- C4 counterexample: in `&'x'&` every pipe/semicolon/`&&`/`||` occurrence
lies inside a quoted region (vacuously — there are none), and none of the
other three rules fires, yet `check_spawn_cmd` rejects the command: joining
the unquoted segments turns the two `&` around the quoted `'x'` into `&&`.
This refutes the claim's "ok=true absent other violations" direction. -/
theorem C4_claim_counterexample :
    specOpOutsideQuotes .unquoted joinArtifactCmd.toList = false
    ∧ cmdSubstitutionMatch joinArtifactCmd.toList = false
    ∧ recursiveSpawnMatch joinArtifactCmd.toList = false
    ∧ systemPathMatch joinArtifactCmd.toList = false
    ∧ (check_spawn_cmd joinArtifactCmd).ok = false := by
  refine ⟨by decide, by decide, by decide, by decide, by decide⟩

/-- C4 (amended): if every pipe/semicolon/`&&`/`||` occurrence lies strictly
inside a quoted region (tracked left-to-right per the spec's quote
semantics) and, in addition, the unquoted segments do not concatenate into
an `&&` (two unquoted `&` separated only by quoted text), then
`check_spawn_cmd` accepts absent other violations; any such operator
occurring outside a quoted region is rejected; and
`claude --print 'grep foo | bar'` is accepted. -/
theorem C4_quoted_operators_amended :
    (∀ cmd : String,
        specOpOutsideQuotes .unquoted cmd.toList = false →
        containsSeq ['&', '&'] (specUnquotedChars .unquoted cmd.toList) = false →
        cmdSubstitutionMatch cmd.toList = false →
        recursiveSpawnMatch cmd.toList = false →
        systemPathMatch cmd.toList = false →
        (check_spawn_cmd cmd).ok = true)
    ∧ (∀ cmd : String, specOpOutsideQuotes .unquoted cmd.toList = true →
        (check_spawn_cmd cmd).ok = false)
    ∧ (check_spawn_cmd scenarioA).ok = true := by
  refine ⟨?_, ?_, by decide⟩
  · intro cmd h1 h2 h3 h4 h5
    have hops := specOp_false_no_ops .unquoted cmd.toList h1
    have hpipe : containsSeq ['|'] (specUnquotedChars .unquoted cmd.toList) = false := by
      cases hx : containsSeq ['|'] (specUnquotedChars .unquoted cmd.toList) with
      | false => rfl
      | true => exact absurd (containsSeq_single_iff.mp hx) hops.1
    have hsemi : containsSeq [';'] (specUnquotedChars .unquoted cmd.toList) = false := by
      cases hx : containsSeq [';'] (specUnquotedChars .unquoted cmd.toList) with
      | false => rfl
      | true => exact absurd (containsSeq_single_iff.mp hx) hops.2
    have hpp : containsSeq ['|', '|'] (specUnquotedChars .unquoted cmd.toList) = false := by
      cases hx : containsSeq ['|', '|'] (specUnquotedChars .unquoted cmd.toList) with
      | false => rfl
      | true => exact absurd (mem_of_containsSeq_cons hx) hops.1
    have hsh : shellOperatorMatch (unquotedText cmd.toList) = false := by
      rw [unquotedText_eq_spec]
      unfold shellOperatorMatch
      rw [hpipe, hsemi, h2, hpp]
      rfl
    exact (check_ok_true_iff cmd).mpr ⟨h3, h4, h5, hsh⟩
  · intro cmd h
    have hsh : shellOperatorMatch (unquotedText cmd.toList) = true := by
      rw [unquotedText_eq_spec]
      exact specOp_true_operator _ _ h
    cases h' : (check_spawn_cmd cmd).ok with
    | false => rfl
    | true =>
        have := ((check_ok_true_iff cmd).mp h').2.2.2
        rw [this] at hsh
        exact absurd hsh (by simp)

/-- C4 witness: the amended theorem applied at `echo hello` (accepted) and
at `echo hello; rm x` (unquoted semicolon, rejected). -/
theorem C4_witness :
    (check_spawn_cmd ("echo hello")).ok = true
    ∧ (check_spawn_cmd ("echo hello; rm x")).ok = false :=
  ⟨C4_quoted_operators_amended.1 ("echo hello") (by decide) (by decide) (by decide)
      (by decide) (by decide),
    C4_quoted_operators_amended.2.1 ("echo hello; rm x") (by decide)⟩

/-! ## Router — `src/core/router.py`

The external classifier call (Ollama) and Python's `json.loads` are outside
the repository; the call is modelled by an outcome per attempt and
`json.loads` by an oracle `String → Option JVal`.  Everything else —
fence stripping, schema validation, the retry loop with exponential
backoff — is translated from `Router.route` and `Router._parse`. -/

/-- A JSON value, the possible results of `json.loads`. -/
inductive JVal where
  | jnull
  | jbool (b : Bool)
  | jnum (n : Int)
  | jstr (s : String)
  | jarr (xs : List JVal)
  | jobj (fields : List (String × JVal))

/-- `RouterOutput` pydantic model: exactly three declared fields. -/
structure RouterOutput where
  tool_name : String
  params : List (String × JVal)
  handoff : Bool

/-- Split into lines like Python `str.splitlines` (newline terminators not
kept; no trailing empty line for a final newline). -/
def splitNlAux : List Char → List Char → List (List Char)
  | [], acc => [acc.reverse]
  | c :: rest, acc =>
      if c = '\n' then acc.reverse :: splitNlAux rest []
      else splitNlAux rest (c :: acc)

/-- Python `str.splitlines` (newline-only model). -/
def pySplitlines (cs : List Char) : List (List Char) :=
  match cs with
  | [] => []
  | _ =>
      let ps := splitNlAux cs []
      if ps.getLast? = some [] then ps.dropLast else ps

/-- The three-backtick code fence marker. -/
def fenceSeq : List Char := [btick, btick, btick]

/-- `_parse`'s fence stripping: if the raw text starts with a fence, drop
every line that starts with a fence, rejoin with newlines, and strip. -/
def stripFences (raw : List Char) : List Char :=
  if startsList fenceSeq raw then
    trimChars (List.intercalate ['\n']
      ((pySplitlines raw).filter (fun l => !startsList fenceSeq l)))
  else raw

/-- Field lookup in a decoded JSON object. -/
def getField (fields : List (String × JVal)) (k : String) : Option JVal :=
  (fields.find? (fun f => f.1 = k)).map (fun f => f.2)

/-- `RouterOutput(**data)` validation: the three declared fields must be
present with their declared shapes (string, object, boolean); extra fields
are ignored (pydantic's default).  Coercion subtleties of pydantic's lax
mode are modelled as exact-shape checks. -/
def validateRouterOutput (v : JVal) : Option RouterOutput :=
  match v with
  | .jobj fields =>
      match getField fields ("tool_name"), getField fields ("params"),
          getField fields ("handoff") with
      | some (.jstr t), some (.jobj p), some (.jbool h) => some ⟨t, p, h⟩
      | _, _, _ => none
  | _ => none

/-- Outcome of `Router._parse` on a raw response. -/
inductive ParseOutcome where
  | ok (out : RouterOutput)
  | malformed (raw : String)
  | nonMapping (raw : String)

/-- `Router._parse`: strip an enclosing code fence if present, then decode;
a decode failure or a schema failure on a decoded object raises the distinct
`ValueError("Invalid router output: ...")` (`malformed`); a decoded
non-object raises a `TypeError` from `**data` (`nonMapping`). -/
def pyParse (jloads : String → Option JVal) (raw : String) : ParseOutcome :=
  let stripped := String.mk (stripFences raw.toList)
  match jloads stripped with
  | none => .malformed stripped
  | some (.jobj fields) =>
      match validateRouterOutput (.jobj fields) with
      | some out => .ok out
      | none => .malformed stripped
  | some _ => .nonMapping stripped

/-- What one classifier call attempt does: times out, fails some other way,
or returns response content. -/
inductive CallOutcome where
  | timeout
  | failure
  | reply (content : String)

/-- One loop iteration's successful result, if any: a reply whose stripped
content parses.  Any other outcome (timeout, transport failure, reply whose
parse raises) is caught by the loop's `except` clauses. -/
def attemptResult (jloads : String → Option JVal) : CallOutcome → Option RouterOutput
  | .reply content =>
      match pyParse jloads (String.mk (trimChars content.toList)) with
      | .ok out => some out
      | _ => none
  | _ => none

/-- Result of `route`: a parsed decision or the terminal `RuntimeError`. -/
inductive RouteResult where
  | ok (out : RouterOutput)
  | error (msg : String)

/-- The terminal failure message, naming the configured attempt count. -/
def failMsg (n : Nat) : String :=
  "Ollama failed after " ++ toString n ++ " attempt(s)"

/-- The retry loop of `Router.route` over the attempt numbers still to run,
returning the result together with the list of backoff delays slept (in
order).  A successful attempt returns immediately; a failed attempt with
`attempt < max_retries` sleeps `2 ** (attempt - 1)` seconds and retries;
falling off the loop raises the terminal failure naming the attempt count. -/
def routeLoop (jloads : String → Option JVal) (outcomes : Nat → CallOutcome)
    (maxRetries : Nat) : List Nat → RouteResult × List Nat
  | [] => (.error (failMsg maxRetries), [])
  | attempt :: rest =>
      match attemptResult jloads (outcomes attempt) with
      | some out => (.ok out, [])
      | none =>
          if attempt < maxRetries then
            let p := routeLoop jloads outcomes maxRetries rest
            (p.1, 2 ^ (attempt - 1) :: p.2)
          else (.error (failMsg maxRetries), [])

/-- `Router.route` with the call outcomes supplied per attempt: the loop
`for attempt in range(1, max_retries + 1)`. -/
def route (jloads : String → Option JVal) (outcomes : Nat → CallOutcome)
    (maxRetries : Nat) : RouteResult × List Nat :=
  routeLoop jloads outcomes maxRetries (List.range' 1 maxRetries)

/-- C6: with maximum attempt count 3, two timeouts followed by a reply whose
stripped content parses make `route` return the parsed decision, with
exactly two backoff waits, of 1 and 2 base units — the second double the
first (delays `2 ** (attempt - 1)`). -/
theorem C6_two_timeouts_then_success :
    ∀ (jloads : String → Option JVal) (outcomes : Nat → CallOutcome) (raw : String)
      (out : RouterOutput),
      outcomes 1 = .timeout → outcomes 2 = .timeout → outcomes 3 = .reply raw →
      pyParse jloads (String.mk (trimChars raw.toList)) = .ok out →
      route jloads outcomes 3 = (.ok out, [1, 2]) := by
  intro jl oc raw out h1 h2 h3 hp
  show routeLoop jl oc 3 [1, 2, 3] = _
  simp only [String.toList] at hp
  simp [routeLoop, attemptResult, h1, h2, h3, hp]

/-- Concrete classifier-response oracle used by the C6 witness. -/
def jloadsW : String → Option JVal := fun s =>
  if s = "ROUTED" then
    some (.jobj [("tool_name", .jstr "arxiv"), ("params", .jobj []),
      ("handoff", .jbool false)])
  else none

/-- Concrete per-attempt outcomes used by the C6 witness. -/
def ocW : Nat → CallOutcome := fun n => if n = 3 then .reply ("ROUTED") else .timeout

/-- C6 witness: the theorem applied to a concrete oracle where attempts 1
and 2 time out and attempt 3 replies with parseable content. -/
theorem C6_witness :
    route jloadsW ocW 3 =
      (.ok ⟨"arxiv", [], false⟩, [1, 2]) :=
  C6_two_timeouts_then_success jloadsW ocW ("ROUTED") ⟨"arxiv", [], false⟩
    rfl rfl rfl rfl

/-- If two outcome assignments give every listed attempt the same attempt
result, the retry loop behaves identically on them. -/
theorem routeLoop_outcome_irrel (jl : String → Option JVal)
    (oc oc' : Nat → CallOutcome) (n : Nat) :
    ∀ l : List Nat, (∀ j ∈ l, attemptResult jl (oc j) = attemptResult jl (oc' j)) →
      routeLoop jl oc n l = routeLoop jl oc' n l := by
  intro l
  induction l with
  | nil => intro _; rfl
  | cons a t ih =>
      intro h
      simp only [routeLoop]
      rw [h a (List.mem_cons_self a t)]
      cases attemptResult jl (oc' a) with
      | some out => rfl
      | none =>
          rw [ih (fun j hj => h j (List.mem_cons_of_mem a hj))]

/-- If every listed attempt fails, the retry loop ends in the terminal
failure naming the configured attempt count. -/
theorem routeLoop_all_fail (jl : String → Option JVal) (oc : Nat → CallOutcome)
    (n : Nat) :
    ∀ l : List Nat, (∀ j ∈ l, attemptResult jl (oc j) = none) →
      (routeLoop jl oc n l).1 = .error (failMsg n) := by
  intro l
  induction l with
  | nil => intro _; rfl
  | cons a t ih =>
      intro h
      simp only [routeLoop]
      rw [h a (List.mem_cons_self a t)]
      by_cases hlt : a < n
      · simp only [if_pos hlt]
        exact ih (fun j hj => h j (List.mem_cons_of_mem a hj))
      · simp only [if_neg hlt]

/-- Fenced sample response used to exhibit the fence-stripping step. -/
def fencedSample : String := "```json\n\x7b\"handoff\": true\x7d\n```"

/-- The same sample with the enclosing fence removed. -/
def innerSample : String := "\x7b\"handoff\": true\x7d"

/-- C7: `_parse` strips an enclosing code fence first (exhibited on a fenced
sample); a JSON-syntax failure or a three-field schema failure on a decoded
object yields the distinct `malformed` outcome; an attempt whose reply fails
to parse is handled by the retry loop exactly like a timeout (the loop is
blind to the error kind); and when every configured attempt fails `route`
ends in the terminal failure message naming the attempt count. -/
theorem C7_malformed_output_retry :
    (∀ (jloads : String → Option JVal) (raw : String),
        jloads (String.mk (stripFences raw.toList)) = none →
        pyParse jloads raw = .malformed (String.mk (stripFences raw.toList)))
    ∧ (∀ (jloads : String → Option JVal) (raw : String)
        (fields : List (String × JVal)),
        jloads (String.mk (stripFences raw.toList)) = some (.jobj fields) →
        validateRouterOutput (.jobj fields) = none →
        pyParse jloads raw = .malformed (String.mk (stripFences raw.toList)))
    ∧ stripFences fencedSample.toList = innerSample.toList
    ∧ (∀ (jloads : String → Option JVal) (outcomes : Nat → CallOutcome)
        (n k : Nat) (raw : String),
        outcomes k = .reply raw → attemptResult jloads (.reply raw) = none →
        route jloads outcomes n =
          route jloads (fun j => if j = k then .timeout else outcomes j) n)
    ∧ (∀ (jloads : String → Option JVal) (outcomes : Nat → CallOutcome) (n : Nat),
        (∀ k, 1 ≤ k → k ≤ n → attemptResult jloads (outcomes k) = none) →
        (route jloads outcomes n).1 = .error (failMsg n)) := by
  refine ⟨?_, ?_, by decide, ?_, ?_⟩
  · intro jl raw h
    simp only [String.toList] at h
    simp [pyParse, h]
  · intro jl raw fields h hv
    simp only [String.toList] at h
    simp [pyParse, h, hv]
  · intro jl oc n k raw hk hfail
    apply routeLoop_outcome_irrel
    intro j _
    by_cases hj : j = k
    · subst hj
      rw [hk, if_pos rfl, hfail]
      rfl
    · rw [if_neg hj]
  · intro jl oc n h
    apply routeLoop_all_fail
    intro j hj
    have := List.mem_range'_1.mp hj
    exact h j this.1 (by omega)

/-- Oracle decoding `OBJ` to an empty JSON object (schema failure). -/
def jloadsObjW : String → Option JVal := fun s =>
  if s = "OBJ" then some (.jobj []) else none

/-- C7 witness: each universally quantified part applied at a concrete
input with its hypotheses discharged by evaluation. -/
theorem C7_witness :
    pyParse (fun _ => none) ("x") = .malformed ("x")
    ∧ pyParse jloadsObjW ("OBJ") = .malformed ("OBJ")
    ∧ route (fun _ => none) (fun _ => .reply ("bad")) 2 =
        route (fun _ => none) (fun j => if j = 1 then .timeout
          else (fun _ => CallOutcome.reply ("bad")) j) 2
    ∧ (route (fun _ => none) (fun _ => .timeout) 2).1 = .error (failMsg 2) :=
  ⟨C7_malformed_output_retry.1 (fun _ => none) ("x") rfl,
    C7_malformed_output_retry.2.1 jloadsObjW ("OBJ") [] rfl rfl,
    C7_malformed_output_retry.2.2.2.1 (fun _ => none)
      (fun _ => .reply ("bad")) 2 1 ("bad") rfl rfl,
    C7_malformed_output_retry.2.2.2.2 (fun _ => none) (fun _ => .timeout) 2
      (fun _ _ _ => rfl)⟩

/-! ## Interface validator — `src/guardian/interface_check.py`

A candidate class is modelled by what `inspect` extracts from it: the
declared name attribute (`none` models a missing or non-string attribute),
each contract method as an optional signature (whether it is a coroutine
function and its parameter-name list, `self` included), and the module
source text read for the danger scan (`none` models `TypeError`/`OSError`
in `inspect.getfile`/`read_text`). -/

/-- `ValidationIssue` dataclass (severity is the string "error"/"warning"). -/
structure ValidationIssue where
  module_name : String
  issue_text : String
  severity : String
  deriving Repr, DecidableEq

/-- What `inspect` reports about one method. -/
structure MethodSig where
  isAsync : Bool
  paramNames : List String
  deriving Repr, DecidableEq

/-- A Tool candidate class as seen by `_check_tool`. -/
structure ToolCandidate where
  modName : String
  tool_name : Option String
  run_local : Option MethodSig
  get_spawn_cmd : Option MethodSig
  source : Option String
  deriving Repr, DecidableEq

/-- A Brain candidate class as seen by `_check_brain`. -/
structure BrainCandidate where
  modName : String
  brain_name : Option String
  get_spawn_cmd : Option MethodSig
  source : Option String
  deriving Repr, DecidableEq

/-- A Provider candidate class as seen by `_check_provider`. -/
structure ProviderCandidate where
  modName : String
  run : Option MethodSig
  deriving Repr, DecidableEq

/-- The words of `SYSTEM_PATH_RE = r'["\x27/](etc|usr|var|sys|proc|root|boot|lib|bin|sbin)/'`. -/
def dangerWords : List (List Char) :=
  ["etc".toList, "usr".toList, "var".toList, "sys".toList, "proc".toList,
    "root".toList, "boot".toList, "lib".toList, "bin".toList, "sbin".toList]

/-- Does a `SYSTEM_PATH_RE` match start at this position? -/
def dangerHere : List Char → Bool
  | [] => false
  | c :: rest =>
      (c = dquote || c = squote || c = '/') &&
        dangerWords.any (fun w => startsList (w ++ ['/']) rest)

/-- `SYSTEM_PATH_RE.search(source)`. -/
def dangerMatch : List Char → Bool
  | [] => false
  | c :: rest => dangerHere (c :: rest) || dangerMatch rest

/-- `_check_tool(cls)`. -/
def check_tool (c : ToolCandidate) : List ValidationIssue :=
  let nameIssues :=
    match c.tool_name with
    | none => [⟨c.modName, "tool_name is missing or empty", "error"⟩]
    | some s => if isBlank s then [⟨c.modName, "tool_name is missing or empty", "error"⟩] else []
  let rlIssues :=
    match c.run_local with
    | none => [⟨c.modName, "missing run_local method", "error"⟩]
    | some m =>
        (if !m.isAsync then [⟨c.modName, "run_local must be async", "error"⟩] else [])
        ++ (if m.paramNames.length < 2 || !(m.paramNames.get? 1 = some ("params")) then
              [⟨c.modName, "run_local must accept (self, params: dict)", "error"⟩]
            else [])
  let gscIssues :=
    match c.get_spawn_cmd with
    | none => [⟨c.modName, "missing get_spawn_cmd method", "error"⟩]
    | some m =>
        (if m.isAsync then [⟨c.modName, "get_spawn_cmd must not be async", "error"⟩] else [])
        ++ (if m.paramNames.length < 2 || !(m.paramNames.get? 1 = some ("params")) then
              [⟨c.modName, "get_spawn_cmd must accept (self, params: dict)", "error"⟩]
            else [])
  nameIssues ++ rlIssues ++ gscIssues

/-- `_check_brain(cls)`. -/
def check_brain (c : BrainCandidate) : List ValidationIssue :=
  let nameIssues :=
    match c.brain_name with
    | none => [⟨c.modName, "brain_name is missing or empty", "error"⟩]
    | some s => if isBlank s then [⟨c.modName, "brain_name is missing or empty", "error"⟩] else []
  let gscIssues :=
    match c.get_spawn_cmd with
    | none => [⟨c.modName, "missing get_spawn_cmd method", "error"⟩]
    | some m =>
        (if m.isAsync then [⟨c.modName, "get_spawn_cmd must not be async", "error"⟩] else [])
        ++ (if m.paramNames.length < 3 || !(m.paramNames.get? 1 = some ("tool_name"))
              || !(m.paramNames.get? 2 = some ("params")) then
              [⟨c.modName,
                "get_spawn_cmd must accept (self, tool_name: str, params: dict)",
                "error"⟩]
            else [])
  nameIssues ++ gscIssues

/-- `_check_provider(cls)`. -/
def check_provider (c : ProviderCandidate) : List ValidationIssue :=
  match c.run with
  | none => [⟨c.modName, "missing run() method", "error"⟩]
  | some m =>
      (if !m.isAsync then [⟨c.modName, "run() must be async", "error"⟩] else [])
      ++ (if !(m.paramNames.length = 1) then
            [⟨c.modName, "run() must have signature (self)", "error"⟩]
          else [])

/-- `_scan_source_for_danger(cls)`: a warning only, never an error. -/
def scan_source_for_danger (modName : String) (source : Option String) :
    List ValidationIssue :=
  match source with
  | none => []
  | some src =>
      if dangerMatch src.toList then
        [⟨modName, "source references a system path; manual review recommended",
          "warning"⟩]
      else []

/-- Combined per-tool issues as gathered inside `validate_registries`. -/
def toolIssues (c : ToolCandidate) : List ValidationIssue :=
  check_tool c ++ scan_source_for_danger c.modName c.source

/-- Combined per-brain issues as gathered inside `validate_registries`. -/
def brainIssues (c : BrainCandidate) : List ValidationIssue :=
  check_brain c ++ scan_source_for_danger c.modName c.source

/-- `any(i.severity == "error" for i in issues)`. -/
def hasError (issues : List ValidationIssue) : Bool :=
  issues.any (fun i => i.severity = "error")

/-- `validate_registries(tool_registry, brain_registry, provider_classes)`:
collects every issue (tools, then brains, then providers, in registry
order) and deletes each registry entry with at least one error-severity
issue.  Registries are association lists modelling the Python dicts. -/
def validate_registries (tools : List (String × ToolCandidate))
    (brains : List (String × BrainCandidate))
    (providers : List ProviderCandidate) :
    List (String × ToolCandidate) × List (String × BrainCandidate) ×
      List ValidationIssue :=
  let toolIss := (tools.map (fun p => toolIssues p.2)).flatten
  let brainIss := (brains.map (fun p => brainIssues p.2)).flatten
  let provIss := (providers.map check_provider).flatten
  let tools' := tools.filter (fun p => !hasError (toolIssues p.2))
  let brains' := brains.filter (fun p => !hasError (brainIssues p.2))
  (tools', brains', toolIss ++ brainIss ++ provIss)

/-- `hasError` distributes over append. -/
theorem hasError_append (a b : List ValidationIssue) :
    hasError (a ++ b) = (hasError a || hasError b) :=
  List.any_append

/-- A list with no error-severity issue contains no error-severity member. -/
theorem not_error_of_hasError_false {l : List ValidationIssue}
    (h : hasError l = false) {i : ValidationIssue} (hi : i ∈ l) :
    i.severity ≠ "error" := by
  intro he
  have : hasError l = true := List.any_eq_true.mpr ⟨i, hi, by simp [he]⟩
  rw [h] at this
  exact absurd this (by simp)

/-- C8: running `validate_registries` a second time on its own output
removes nothing further from either registry, and every error-severity
issue of the second run already appeared in the first run's issue list
(surviving entries have no errors; provider issues are recomputed
identically). -/
theorem C8_validate_idempotent :
    ∀ (tools : List (String × ToolCandidate))
      (brains : List (String × BrainCandidate))
      (providers : List ProviderCandidate),
      (validate_registries (validate_registries tools brains providers).1
          (validate_registries tools brains providers).2.1 providers).1
        = (validate_registries tools brains providers).1
      ∧ (validate_registries (validate_registries tools brains providers).1
          (validate_registries tools brains providers).2.1 providers).2.1
        = (validate_registries tools brains providers).2.1
      ∧ ∀ i ∈ (validate_registries (validate_registries tools brains providers).1
          (validate_registries tools brains providers).2.1 providers).2.2,
          i.severity = "error" →
          i ∈ (validate_registries tools brains providers).2.2 := by
  intro t b p
  simp only [validate_registries]
  refine ⟨?_, ?_, ?_⟩
  · exact List.filter_eq_self.mpr (fun x hx => (List.mem_filter.mp hx).2)
  · exact List.filter_eq_self.mpr (fun x hx => (List.mem_filter.mp hx).2)
  · intro i hi hie
    rcases List.mem_append.mp hi with hi | hi
    · rcases List.mem_append.mp hi with hi | hi
      · rcases List.mem_flatten.mp hi with ⟨l, hl, hil⟩
        rcases List.mem_map.mp hl with ⟨pr, hpr, rfl⟩
        have hok : (!hasError (toolIssues pr.2)) = true := (List.mem_filter.mp hpr).2
        have : hasError (toolIssues pr.2) = false := by simpa using hok
        exact absurd hie (not_error_of_hasError_false this hil)
      · rcases List.mem_flatten.mp hi with ⟨l, hl, hil⟩
        rcases List.mem_map.mp hl with ⟨pr, hpr, rfl⟩
        have hok : (!hasError (brainIssues pr.2)) = true := (List.mem_filter.mp hpr).2
        have : hasError (brainIssues pr.2) = false := by simpa using hok
        exact absurd hie (not_error_of_hasError_false this hil)
    · exact List.mem_append.mpr (Or.inr hi)

/-- A provider candidate with no `run` method (its error issue recurs on
every validation pass, exercising C8's issue-containment part). -/
def badProviderW : ProviderCandidate := ⟨"providers.bad", none⟩

/-- C8 witness: the idempotence theorem applied to concrete registries with
one always-failing provider; its recurring error issue is also located in
the first run's issue list through the theorem. -/
theorem C8_witness :
    (validate_registries (validate_registries [] [] [badProviderW]).1
        (validate_registries [] [] [badProviderW]).2.1 [badProviderW]).1
      = (validate_registries [] [] [badProviderW]).1
    ∧ (validate_registries (validate_registries [] [] [badProviderW]).1
        (validate_registries [] [] [badProviderW]).2.1 [badProviderW]).2.1
      = (validate_registries [] [] [badProviderW]).2.1
    ∧ (⟨"providers.bad", "missing run() method", "error"⟩ : ValidationIssue)
        ∈ (validate_registries [] [] [badProviderW]).2.2 :=
  ⟨(C8_validate_idempotent [] [] [badProviderW]).1,
    (C8_validate_idempotent [] [] [badProviderW]).2.1,
    (C8_validate_idempotent [] [] [badProviderW]).2.2
      ⟨"providers.bad", "missing run() method", "error"⟩ (by decide) (by decide)⟩

/-- The candidate name is missing or blank (Python
`not isinstance(name, str) or not name.strip()`). -/
def toolNameBad (c : ToolCandidate) : Bool :=
  match c.tool_name with
  | none => true
  | some s => isBlank s

/-- The signature has fewer parameters than `(self, params)`. -/
def sigShort : Option MethodSig → Bool
  | some m => m.paramNames.length < 2
  | none => false

/-- One of the two contract operations is declared with too few parameters. -/
def toolArityShort (c : ToolCandidate) : Bool :=
  sigShort c.run_local || sigShort c.get_spawn_cmd

/-- A Tool candidate whose `run_local` takes an extra third parameter:
its parameter count is wrong (the contract is exactly `(self, params)`),
yet `_check_tool` only tests `len(params) < 2 or params[1] != "params"`. -/
def extraParamTool : ToolCandidate :=
  ⟨"tools.extra", some ("extra"), some ⟨true, ["self", "params", "junk"]⟩,
    some ⟨false, ["self", "params"]⟩, none⟩

/-- C9 counterexample: a Tool candidate exposing `run_local` with the wrong
parameter count (three parameters instead of two) receives no issue at all
from `_check_tool` and survives `validate_registries` — the claim's
"wrong parameter count always yields ≥1 error issue and is removed" fails
for a parameter count that is too large. -/
theorem C9_claim_counterexample :
    extraParamTool.run_local = some ⟨true, ["self", "params", "junk"]⟩
    ∧ check_tool extraParamTool = []
    ∧ (validate_registries [("extra", extraParamTool)] [] []).1
        = [("extra", extraParamTool)]
    ∧ (validate_registries [("extra", extraParamTool)] [] []).2.2 = [] := by
  refine ⟨rfl, by decide, by decide, by decide⟩

/-- The candidate of Scenario C: declared name empty, both operations
conforming, no source to scan. -/
def emptyNameTool : ToolCandidate :=
  ⟨"tools.nameless", some (""), some ⟨true, ["self", "params"]⟩,
    some ⟨false, ["self", "params"]⟩, none⟩

/-- C9 (amended): a Tool candidate missing its required non-empty name, or
exposing `run_local` or `get_spawn_cmd` with too few parameters (fewer than
`self` plus the parameter object — an excess parameter count is not
detected), always yields at least one error-severity issue, that issue
appears in `validate_registries`' report when the candidate is registered,
and the candidate's entries are removed from the registry; a candidate with
an empty declared name is removed and yields exactly one error issue
referencing the missing `tool_name`. -/
theorem C9_bad_tool_removed_amended :
    (∀ (c : ToolCandidate) (k : String)
      (tools : List (String × ToolCandidate))
      (brains : List (String × BrainCandidate))
      (providers : List ProviderCandidate),
      toolNameBad c = true ∨ toolArityShort c = true →
      (∃ i ∈ check_tool c, i.severity = "error" ∧ i.module_name = c.modName)
      ∧ ((k, c) ∈ tools →
          ∃ i ∈ (validate_registries tools brains providers).2.2,
            i.severity = "error" ∧ i.module_name = c.modName)
      ∧ (k, c) ∉ (validate_registries tools brains providers).1)
    ∧ (validate_registries [("", emptyNameTool)] [] []).1 = []
    ∧ ((validate_registries [("", emptyNameTool)] [] []).2.2.filter
        (fun i => i.severity = "error"))
        = [⟨"tools.nameless", "tool_name is missing or empty", "error"⟩] := by
  refine ⟨?_, by decide, by decide⟩
  intro c k tools brains providers h
  have key : ∃ i ∈ check_tool c, i.severity = "error" ∧ i.module_name = c.modName := by
    rcases h with hb | ha
    · refine ⟨⟨c.modName, "tool_name is missing or empty", "error"⟩, ?_, rfl, rfl⟩
      unfold toolNameBad at hb
      cases hn : c.tool_name with
      | none => simp [check_tool, hn]
      | some s =>
          rw [hn] at hb
          have hb' : isBlank s = true := by simpa using hb
          simp [check_tool, hn, hb']
    · have ha' : sigShort c.run_local = true ∨ sigShort c.get_spawn_cmd = true := by
        simpa [toolArityShort] using ha
      rcases ha' with hs | hs
      · cases hr : c.run_local with
        | none => rw [hr] at hs; exact absurd hs (by simp [sigShort])
        | some m =>
            rw [hr] at hs
            have hlen : m.paramNames.length < 2 := by simpa [sigShort] using hs
            refine ⟨⟨c.modName, "run_local must accept (self, params: dict)", "error"⟩,
              ?_, rfl, rfl⟩
            simp [check_tool, hr, hlen]
      · cases hr : c.get_spawn_cmd with
        | none => rw [hr] at hs; exact absurd hs (by simp [sigShort])
        | some m =>
            rw [hr] at hs
            have hlen : m.paramNames.length < 2 := by simpa [sigShort] using hs
            refine ⟨⟨c.modName, "get_spawn_cmd must accept (self, params: dict)", "error"⟩,
              ?_, rfl, rfl⟩
            simp [check_tool, hr, hlen]
  obtain ⟨i, hi, hie, him⟩ := key
  have herr : hasError (toolIssues c) = true :=
    List.any_eq_true.mpr ⟨i, List.mem_append.mpr (Or.inl hi), by simp [hie]⟩
  refine ⟨⟨i, hi, hie, him⟩, ?_, ?_⟩
  · intro hmem
    refine ⟨i, ?_, hie, him⟩
    simp only [validate_registries]
    refine List.mem_append.mpr (Or.inl (List.mem_append.mpr (Or.inl ?_)))
    exact List.mem_flatten.mpr ⟨toolIssues c,
      List.mem_map.mpr ⟨(k, c), hmem, rfl⟩,
      List.mem_append.mpr (Or.inl hi)⟩
  · intro hmem
    have : (!hasError (toolIssues c)) = true := (List.mem_filter.mp hmem).2
    rw [herr] at this
    exact absurd this (by simp)

/-- C9 witness: the amended theorem applied to the Scenario C candidate in a
one-entry registry. -/
theorem C9_witness :
    (∃ i ∈ check_tool emptyNameTool, i.severity = "error"
      ∧ i.module_name = emptyNameTool.modName)
    ∧ ((("", emptyNameTool) ∈ [("", emptyNameTool)]) →
        ∃ i ∈ (validate_registries [("", emptyNameTool)] [] []).2.2,
          i.severity = "error" ∧ i.module_name = emptyNameTool.modName)
    ∧ ("", emptyNameTool) ∉ (validate_registries [("", emptyNameTool)] [] []).1 :=
  C9_bad_tool_removed_amended.1 emptyNameTool ("") [("", emptyNameTool)] [] []
    (Or.inl (by decide))

/-! ## Smoke tester — `src/guardian/smoke_test.py`

A module under test is modelled by what each step of `run` observes:
the import outcome, the new `BaseTool` subclass the import introduced (if
any), and that class's behaviour when instantiated and exercised with an
empty parameter object (`Except` carries the exception message). -/

/-- `SmokeResult` dataclass. -/
structure SmokeResult where
  ok : Bool
  reason : String := ""
  deriving Repr, DecidableEq

/-- Behaviour of the discovered tool class under the smoke test's probes. -/
structure ToolClassSpec where
  instantiate : Except String Unit
  get_spawn_cmd_empty : Except String String
  run_local_empty : Except String Unit

/-- A module under test: steps 1 and 2 of `run`. -/
structure ModuleUnderTest where
  load : Except String Unit
  newToolSubclass : Option ToolClassSpec

/-- `smoke_test.run(path)`: the five-step behavioural gate; the first
failing step returns `ok=False` with its reason, and `ok=True` requires all
five steps to succeed. -/
def smokeRun (m : ModuleUnderTest) : SmokeResult :=
  match m.load with
  | .error e => ⟨false, "ImportError: " ++ e⟩
  | .ok _ =>
    match m.newToolSubclass with
    | none => ⟨false, "No BaseTool subclass with tool_name found in module"⟩
    | some t =>
      match t.instantiate with
      | .error e => ⟨false, "Instantiation failed: " ++ e⟩
      | .ok _ =>
        match t.get_spawn_cmd_empty with
        | .error e => ⟨false, "get_spawn_cmd raised: " ++ e⟩
        | .ok cmd =>
          if isBlank cmd then
            ⟨false, "get_spawn_cmd(\x7b\x7d) returned empty or non-str"⟩
          else
            match t.run_local_empty with
            | .error e => ⟨false, "run_local raised: " ++ e⟩
            | .ok _ => ⟨true, ""⟩

/-! ## Hot module watcher — `src/guardian/watcher.py`

Files are `(directory, name)` pairs; the disk is the list of present files
with their mtimes; the watcher state carries the snapshot `known`, the tool
registry (modelled as capability name × source path so that "the file
appears in the registry" is expressible), the quarantine directory's
contents, and the disk.  `smoke` is the smoke-test oracle for a path and
`admits` the capability names `_hot_register` would register for it. -/

/-- A file path: watched subdirectory and file name. -/
structure FPath where
  dir : String
  name : String
  deriving Repr, DecidableEq

/-- `_WATCH_DIRS`. -/
def watchDirs : List String := ["tools", "brains", "providers"]

/-- The infrastructure files excluded by name. -/
def infraNames : List String := ["__init__.py", "base.py", "registry.py"]

/-- Does `p.name` end in `.py` (the `*.py` glob)? -/
def isPyFile (p : FPath) : Bool := startsList ("yp.".toList) p.name.toList.reverse

/-- A file the watcher looks at: in a watched directory, a `.py` file, not
an infrastructure file. -/
def isWatchedFile (p : FPath) : Bool :=
  watchDirs.contains p.dir && isPyFile p && !(infraNames.contains p.name)

/-- Is `p` a key of the snapshot? -/
def knownHas (known : List (FPath × Nat)) (p : FPath) : Bool :=
  known.any (fun kv => kv.1 = p)

/-- `_new_files(known, base)`: watched files on disk whose path is not in
the snapshot. -/
def newFiles (known : List (FPath × Nat)) (disk : List (FPath × Nat)) : List FPath :=
  (disk.filter (fun pm => isWatchedFile pm.1 && !knownHas known pm.1)).map
    (fun pm => pm.1)

/-- `path.stat().st_mtime if path.exists() else 0.0`. -/
def mtimeOrZero (disk : List (FPath × Nat)) (p : FPath) : Nat :=
  match disk.find? (fun pm => pm.1 = p) with
  | some pm => pm.2
  | none => 0

/-- Dict assignment `known[path] = t`. -/
def setKnown (known : List (FPath × Nat)) (p : FPath) (t : Nat) :
    List (FPath × Nat) :=
  if knownHas known p then
    known.map (fun kv => if kv.1 = p then (p, t) else kv)
  else known ++ [(p, t)]

/-- The watcher's mutable state during one poll. -/
structure WState where
  known : List (FPath × Nat)
  reg : List (String × FPath)
  quar : List FPath
  disk : List (FPath × Nat)

/-- Processing of one new file in the poll loop: smoke-test; on success
hot-register the names the module introduces; on failure move the file to
quarantine (removing it from every watched directory); then update the
snapshot entry for the path (using the post-move disk, so a quarantined
file records mtime 0.0). -/
def processFile (smoke : FPath → SmokeResult) (admits : FPath → List String)
    (st : WState) (p : FPath) : WState :=
  if (smoke p).ok then
    ⟨setKnown st.known p (mtimeOrZero st.disk p),
      st.reg ++ (admits p).map (fun n => (n, p)), st.quar, st.disk⟩
  else
    let disk' := st.disk.filter (fun pm => !(pm.1 = p))
    ⟨setKnown st.known p (mtimeOrZero disk' p), st.reg, st.quar ++ [p], disk'⟩

/-- One iteration of the `while True` poll loop: the disk as found at the
poll (`diskNow`, the environment may have changed it between polls), then
each new file processed in order. -/
def pollOnce (smoke : FPath → SmokeResult) (admits : FPath → List String)
    (st : WState) (diskNow : List (FPath × Nat)) : WState :=
  (newFiles st.known diskNow).foldl (processFile smoke admits)
    { st with disk := diskNow }

/-- The poll loop run over a sequence of observed disk states. -/
def runPolls (smoke : FPath → SmokeResult) (admits : FPath → List String) :
    WState → List (List (FPath × Nat)) → WState
  | st, [] => st
  | st, d :: ds => runPolls smoke admits (pollOnce smoke admits st d) ds

/-! ### Watcher invariants -/

theorem knownHas_setKnown_self (known : List (FPath × Nat)) (p : FPath) (t : Nat) :
    knownHas (setKnown known p t) p = true := by
  unfold setKnown knownHas
  split_ifs with h
  · unfold knownHas at h
    rcases List.any_eq_true.mp h with ⟨kv, hkv, hfst⟩
    have hk : kv.1 = p := by simpa using hfst
    exact List.any_eq_true.mpr
      ⟨(p, t), List.mem_map.mpr ⟨kv, hkv, by rw [if_pos hk]⟩, by simp⟩
  · exact List.any_eq_true.mpr
      ⟨(p, t), List.mem_append.mpr (Or.inr (by simp)), by simp⟩

theorem knownHas_setKnown_mono {known : List (FPath × Nat)} {q : FPath}
    (p : FPath) (t : Nat) (h : knownHas known q = true) :
    knownHas (setKnown known p t) q = true := by
  unfold setKnown
  unfold knownHas at h ⊢
  rcases List.any_eq_true.mp h with ⟨kv, hkv, hfst⟩
  have hq : kv.1 = q := by simpa using hfst
  split_ifs with hp
  · by_cases hkp : kv.1 = p
    · exact List.any_eq_true.mpr
        ⟨(p, t), List.mem_map.mpr ⟨kv, hkv, by rw [if_pos hkp]⟩,
          by simp [hkp.symm.trans hq]⟩
    · exact List.any_eq_true.mpr
        ⟨kv, List.mem_map.mpr ⟨kv, hkv, by rw [if_neg hkp]⟩, by simp [hq]⟩
  · exact List.any_eq_true.mpr ⟨kv, List.mem_append.mpr (Or.inl hkv), by simp [hq]⟩

theorem processFile_known_self (smoke : FPath → SmokeResult)
    (admits : FPath → List String) (st : WState) (p : FPath) :
    knownHas (processFile smoke admits st p).known p = true := by
  unfold processFile
  split_ifs <;> exact knownHas_setKnown_self _ _ _

theorem processFile_known_mono (smoke : FPath → SmokeResult)
    (admits : FPath → List String) (st : WState) (p q : FPath)
    (h : knownHas st.known q = true) :
    knownHas (processFile smoke admits st p).known q = true := by
  unfold processFile
  split_ifs <;> exact knownHas_setKnown_mono _ _ h

theorem foldl_known_mono (smoke : FPath → SmokeResult)
    (admits : FPath → List String) (q : FPath) :
    ∀ (files : List FPath) (st : WState), knownHas st.known q = true →
      knownHas ((files.foldl (processFile smoke admits) st)).known q = true := by
  intro files
  induction files with
  | nil => intro st h; exact h
  | cons a t ih =>
      intro st h
      simp only [List.foldl_cons]
      exact ih _ (processFile_known_mono smoke admits st a q h)

theorem foldl_known_of_mem (smoke : FPath → SmokeResult)
    (admits : FPath → List String) (p : FPath) :
    ∀ (files : List FPath) (st : WState), p ∈ files →
      knownHas ((files.foldl (processFile smoke admits) st)).known p = true := by
  intro files
  induction files with
  | nil => intro st h; exact absurd h (List.not_mem_nil p)
  | cons a t ih =>
      intro st h
      simp only [List.foldl_cons]
      rcases List.mem_cons.mp h with rfl | hm
      · exact foldl_known_mono smoke admits p t _
          (processFile_known_self smoke admits st p)
      · exact ih _ hm

theorem pollOnce_known_mono (smoke : FPath → SmokeResult)
    (admits : FPath → List String) (st : WState) (d : List (FPath × Nat))
    (q : FPath) (h : knownHas st.known q = true) :
    knownHas (pollOnce smoke admits st d).known q = true :=
  foldl_known_mono smoke admits q _ _ h

theorem pollOnce_known_of_new (smoke : FPath → SmokeResult)
    (admits : FPath → List String) (st : WState) (d : List (FPath × Nat))
    (p : FPath) (h : p ∈ newFiles st.known d) :
    knownHas (pollOnce smoke admits st d).known p = true :=
  foldl_known_of_mem smoke admits p _ _ h

theorem runPolls_known_mono (smoke : FPath → SmokeResult)
    (admits : FPath → List String) (q : FPath) :
    ∀ (ds : List (List (FPath × Nat))) (st : WState),
      knownHas st.known q = true →
      knownHas (runPolls smoke admits st ds).known q = true := by
  intro ds
  induction ds with
  | nil => intro st h; exact h
  | cons d t ih =>
      intro st h
      exact ih _ (pollOnce_known_mono smoke admits st d q h)

/-- A path in the snapshot is never reported as new. -/
theorem not_new_of_known {known : List (FPath × Nat)} {p : FPath}
    (h : knownHas known p = true) (d : List (FPath × Nat)) :
    p ∉ newFiles known d := by
  intro hm
  unfold newFiles at hm
  rcases List.mem_map.mp hm with ⟨pm, hpm, rfl⟩
  have := (List.mem_filter.mp hpm).2
  simp only [Bool.and_eq_true, Bool.not_eq_true'] at this
  rw [h] at this
  exact absurd this.2 (by simp)

/-- Registry entries pointing at `p` are unchanged by processing when the
smoke test fails for `p`, and new entries only mention processed files. -/
theorem foldl_reg_of_smoke_fail (smoke : FPath → SmokeResult)
    (admits : FPath → List String) (p : FPath) (n : String)
    (hfail : (smoke p).ok = false) :
    ∀ (files : List FPath) (st : WState),
      ((n, p) ∈ (files.foldl (processFile smoke admits) st).reg ↔ (n, p) ∈ st.reg) := by
  intro files
  induction files with
  | nil => intro st; exact Iff.rfl
  | cons a t ih =>
      intro st
      simp only [List.foldl_cons]
      rw [ih]
      unfold processFile
      split_ifs with hs
      · simp only [List.mem_append]
        constructor
        · rintro (h | h)
          · exact h
          · rcases List.mem_map.mp h with ⟨m, _, hm⟩
            have : a = p := congrArg Prod.snd hm
            rw [this] at hs
            rw [hfail] at hs
            exact absurd hs (by simp)
        · exact Or.inl
      · exact Iff.rfl

/-- New registry entries only mention files from the processed list. -/
theorem foldl_reg_superset (smoke : FPath → SmokeResult)
    (admits : FPath → List String) (p : FPath) (n : String) :
    ∀ (files : List FPath) (st : WState),
      (n, p) ∈ (files.foldl (processFile smoke admits) st).reg →
      (n, p) ∈ st.reg ∨ p ∈ files := by
  intro files
  induction files with
  | nil => intro st h; exact Or.inl h
  | cons a t ih =>
      intro st h
      simp only [List.foldl_cons] at h
      rcases ih _ h with h | h
      · unfold processFile at h
        split_ifs at h with hs
        · simp only [List.mem_append] at h
          rcases h with h | h
          · exact Or.inl h
          · rcases List.mem_map.mp h with ⟨m, _, hm⟩
            have : a = p := congrArg Prod.snd hm
            exact Or.inr (this ▸ List.mem_cons_self a t)
        · exact Or.inl h
      · exact Or.inr (List.mem_cons_of_mem a h)

/-- Once a path is in the snapshot and absent from the registry, no number
of further polls (over arbitrary disk states) ever registers it. -/
theorem runPolls_never_registers (smoke : FPath → SmokeResult)
    (admits : FPath → List String) (p : FPath) (n : String) :
    ∀ (ds : List (List (FPath × Nat))) (st : WState),
      knownHas st.known p = true → (n, p) ∉ st.reg →
      (n, p) ∉ (runPolls smoke admits st ds).reg := by
  intro ds
  induction ds with
  | nil => intro st _ h; exact h
  | cons d t ih =>
      intro st hk hr
      apply ih
      · exact pollOnce_known_mono smoke admits st d p hk
      · intro hmem
        rcases foldl_reg_superset smoke admits p n _ _ hmem with h | h
        · exact hr h
        · exact not_new_of_known hk d h

/-- The quarantine directory only accumulates entries. -/
theorem foldl_quar_mono (smoke : FPath → SmokeResult)
    (admits : FPath → List String) (p : FPath) :
    ∀ (files : List FPath) (st : WState), p ∈ st.quar →
      p ∈ (files.foldl (processFile smoke admits) st).quar := by
  intro files
  induction files with
  | nil => intro st h; exact h
  | cons a t ih =>
      intro st h
      simp only [List.foldl_cons]
      apply ih
      unfold processFile
      split_ifs
      · exact h
      · exact List.mem_append.mpr (Or.inl h)

/-- A processed file whose smoke test fails ends up in quarantine. -/
theorem foldl_quar_of_fail (smoke : FPath → SmokeResult)
    (admits : FPath → List String) (p : FPath)
    (hfail : (smoke p).ok = false) :
    ∀ (files : List FPath) (st : WState), p ∈ files →
      p ∈ (files.foldl (processFile smoke admits) st).quar := by
  intro files
  induction files with
  | nil => intro st h; exact absurd h (List.not_mem_nil p)
  | cons a t ih =>
      intro st h
      simp only [List.foldl_cons]
      rcases List.mem_cons.mp h with rfl | hm
      · apply foldl_quar_mono smoke admits p t
        unfold processFile
        rw [hfail]
        simp
      · exact ih _ hm

/-- No processing step restores a disk entry for `p`. -/
theorem processFile_disk_not (smoke : FPath → SmokeResult)
    (admits : FPath → List String) (st : WState) (q p : FPath)
    (h : ∀ pm ∈ st.disk, ¬ pm.1 = p) :
    ∀ pm ∈ (processFile smoke admits st q).disk, ¬ pm.1 = p := by
  unfold processFile
  split_ifs
  · exact h
  · intro pm hpm
    exact h pm (List.mem_filter.mp hpm).1

theorem foldl_disk_not (smoke : FPath → SmokeResult)
    (admits : FPath → List String) (p : FPath) :
    ∀ (files : List FPath) (st : WState), (∀ pm ∈ st.disk, ¬ pm.1 = p) →
      ∀ pm ∈ (files.foldl (processFile smoke admits) st).disk, ¬ pm.1 = p := by
  intro files
  induction files with
  | nil => intro st h; exact h
  | cons a t ih =>
      intro st h
      simp only [List.foldl_cons]
      exact ih _ (processFile_disk_not smoke admits st a p h)

/-- A processed file whose smoke test fails is gone from the disk (it was
moved to quarantine, outside every watched directory). -/
theorem foldl_disk_removed (smoke : FPath → SmokeResult)
    (admits : FPath → List String) (p : FPath)
    (hfail : (smoke p).ok = false) :
    ∀ (files : List FPath) (st : WState), p ∈ files →
      ∀ pm ∈ (files.foldl (processFile smoke admits) st).disk, ¬ pm.1 = p := by
  intro files
  induction files with
  | nil => intro st h; exact absurd h (List.not_mem_nil p)
  | cons a t ih =>
      intro st h
      rcases List.mem_cons.mp h with rfl | hm
      · simp only [List.foldl_cons]
        apply foldl_disk_not smoke admits p t
        unfold processFile
        rw [hfail]
        simp only [Bool.false_eq_true, if_false]
        intro pm hpm
        have := (List.mem_filter.mp hpm).2
        simpa using this
      · simp only [List.foldl_cons]
        exact ih _ hm

/-- C5: a module that raises during load fails the smoke test; a module
that loads cleanly but whose `run_local({})` raises fails the smoke test;
and in the watcher loop a newly observed file whose smoke test fails is
removed from every watched directory, placed in quarantine, contributes
nothing to the registry, and — its path now being in the snapshot — is
never reported as new nor registered on any later poll, whatever the disk
does.  Together: a failing module is quarantined and never reaches a
registry. -/
theorem C5_admission_gate :
    (∀ (m : ModuleUnderTest) (e : String),
        m.load = .error e → (smokeRun m).ok = false)
    ∧ (∀ (m : ModuleUnderTest) (t : ToolClassSpec) (e : String),
        m.load = .ok () → m.newToolSubclass = some t →
        t.run_local_empty = .error e → (smokeRun m).ok = false)
    ∧ (∀ (smoke : FPath → SmokeResult) (admits : FPath → List String)
        (st : WState) (d : List (FPath × Nat)) (p : FPath) (n : String),
        p ∈ newFiles st.known d → (smoke p).ok = false →
        (∀ pm ∈ (pollOnce smoke admits st d).disk, ¬ pm.1 = p)
        ∧ p ∈ (pollOnce smoke admits st d).quar
        ∧ ((n, p) ∈ (pollOnce smoke admits st d).reg ↔ (n, p) ∈ st.reg)
        ∧ ∀ (ds : List (List (FPath × Nat))) (d' : List (FPath × Nat)),
            ((n, p) ∉ st.reg →
              (n, p) ∉ (runPolls smoke admits (pollOnce smoke admits st d) ds).reg)
            ∧ p ∉ newFiles
                (runPolls smoke admits (pollOnce smoke admits st d) ds).known d') := by
  refine ⟨?_, ?_, ?_⟩
  · intro m e h
    simp [smokeRun, h]
  · intro m t e hl hs hr
    cases hi : t.instantiate with
    | error e2 => simp [smokeRun, hl, hs, hi]
    | ok u =>
        cases hg : t.get_spawn_cmd_empty with
        | error e2 => simp [smokeRun, hl, hs, hi, hg]
        | ok cmd =>
            by_cases hb : isBlank cmd = true
            · simp [smokeRun, hl, hs, hi, hg, hb]
            · simp [smokeRun, hl, hs, hi, hg, hb, hr]
  · intro smoke admits st d p n hnew hfail
    refine ⟨?_, ?_, ?_, ?_⟩
    · exact foldl_disk_removed smoke admits p hfail _ _ hnew
    · exact foldl_quar_of_fail smoke admits p hfail _ _ hnew
    · exact foldl_reg_of_smoke_fail smoke admits p n hfail _ _
    · intro ds d'
      have hknown : knownHas (pollOnce smoke admits st d).known p = true :=
        pollOnce_known_of_new smoke admits st d p hnew
      constructor
      · intro hreg
        apply runPolls_never_registers smoke admits p n ds _ hknown
        intro hm
        exact hreg ((foldl_reg_of_smoke_fail smoke admits p n hfail
          (newFiles st.known d) { st with disk := d }).mp hm)
      · exact not_new_of_known (runPolls_known_mono smoke admits p ds _ hknown) d'

/-- A module that raises on import. -/
def mLoadFail : ModuleUnderTest := ⟨.error ("boom"), none⟩

/-- A module that loads, builds a command, but raises in `run_local({})`. -/
def mRunLocalFail : ModuleUnderTest :=
  ⟨.ok (), some ⟨.ok (), .ok ("claude --print hi"), .error ("crash")⟩⟩

/-- The path of the C5/C10 witness scenarios. -/
def pW : FPath := ⟨"tools", "bad_tool.py"⟩

/-- A smoke oracle failing every file. -/
def smokeF : FPath → SmokeResult := fun _ => ⟨false, "ImportError: broken"⟩

/-- The would-be registrations of the witness module. -/
def admitsW : FPath → List String := fun _ => ["x"]

/-- The watcher's initial state for the witness scenarios. -/
def st0 : WState := ⟨[], [], [], []⟩

/-- C5 witness: the three parts applied to concrete modules and a concrete
watcher trace (discovery poll, then an empty poll, then the file's mtime
reappearing). -/
theorem C5_witness :
    (smokeRun mLoadFail).ok = false
    ∧ (smokeRun mRunLocalFail).ok = false
    ∧ pW ∈ (pollOnce smokeF admitsW st0 [(pW, 5)]).quar
    ∧ (("x", pW) ∈ (pollOnce smokeF admitsW st0 [(pW, 5)]).reg ↔
        ("x", pW) ∈ st0.reg)
    ∧ ("x", pW) ∉ (runPolls smokeF admitsW (pollOnce smokeF admitsW st0 [(pW, 5)])
        [[], [(pW, 9)]]).reg
    ∧ pW ∉ newFiles (runPolls smokeF admitsW (pollOnce smokeF admitsW st0 [(pW, 5)])
        [[], [(pW, 9)]]).known [(pW, 9)] :=
  ⟨C5_admission_gate.1 mLoadFail ("boom") rfl,
    C5_admission_gate.2.1 mRunLocalFail ⟨.ok (), .ok ("claude --print hi"), .error ("crash")⟩
      ("crash") rfl rfl rfl,
    (C5_admission_gate.2.2 smokeF admitsW st0 [(pW, 5)] pW ("x") (by decide) rfl).2.1,
    (C5_admission_gate.2.2 smokeF admitsW st0 [(pW, 5)] pW ("x") (by decide) rfl).2.2.1,
    ((C5_admission_gate.2.2 smokeF admitsW st0 [(pW, 5)] pW ("x") (by decide) rfl).2.2.2
      [[], [(pW, 9)]] [(pW, 9)]).1 (by decide),
    ((C5_admission_gate.2.2 smokeF admitsW st0 [(pW, 5)] pW ("x") (by decide) rfl).2.2.2
      [[], [(pW, 9)]] [(pW, 9)]).2⟩

/-- The path used in the C10 counterexample. -/
def pX : FPath := ⟨"tools", "x.py"⟩

/-- A smoke oracle passing every file. -/
def smokeOkW : FPath → SmokeResult := fun _ => ⟨true, ""⟩

/-- The registrations of the C10 module. -/
def admitsX : FPath → List String := fun _ => ["x"]

/-- C10 counterexample: the file at `pX` is observed and smoke-tested on
poll 1 (disk `[(pX, 1)]`), has disappeared at poll 2 (disk `[]`), and
reappears at the same path for poll 3 (disk `[(pX, 2)]`) — yet it is not in
the new-file set of poll 3: the snapshot never drops the path, so the
claim's "re-tested if it disappears and later reappears" direction fails. -/
theorem C10_claim_counterexample :
    pX ∈ newFiles st0.known [(pX, 1)]
    ∧ pX ∉ newFiles
        (pollOnce smokeOkW admitsX (pollOnce smokeOkW admitsX st0 [(pX, 1)]) []).known
        [(pX, 2)] := by
  refine ⟨by decide, by decide⟩

/-- C10 (amended): once a poll has processed a path (it was in the new-file
set) and recorded it in the snapshot, that path is never smoke-tested again
on any later poll, regardless of how the disk changes — in particular even
if the file disappears and reappears, and in particular a quarantined file
is never re-discovered even if reintroduced at the same path. -/
theorem C10_processed_never_retested :
    ∀ (smoke : FPath → SmokeResult) (admits : FPath → List String) (st : WState)
      (d : List (FPath × Nat)) (ds : List (List (FPath × Nat)))
      (d' : List (FPath × Nat)) (p : FPath),
      p ∈ newFiles st.known d →
      p ∉ newFiles (runPolls smoke admits (pollOnce smoke admits st d) ds).known d' := by
  intro smoke admits st d ds d' p h
  exact not_new_of_known
    (runPolls_known_mono smoke admits p ds _
      (pollOnce_known_of_new smoke admits st d p h)) d'

/-- C10 witness: the amended theorem applied to the counterexample trace
(processed on poll 1, absent on poll 2, reappearing for the final check). -/
theorem C10_witness :
    pX ∉ newFiles
      (runPolls smokeOkW admitsX (pollOnce smokeOkW admitsX st0 [(pX, 1)]) [[]]).known
      [(pX, 2)] :=
  C10_processed_never_retested smokeOkW admitsX st0 [(pX, 1)] [[]] [(pX, 2)] pX
    (by decide)

/-! ## Task model and dispatcher — `src/core/db.py`, `src/core/engine.py` -/

/-- The `TaskStatus` enum exactly as declared in `src/core/db.py` (lines
25–29): four members — `failed` is not among them, although
`Engine._handle` (engine.py line 96) and the tests
(`test_db.py::test_failed_status_persists_error_metadata`) use
`TaskStatus.failed`. -/
inductive TaskStatus where
  | pending
  | routing
  | executing
  | done
  deriving Repr, DecidableEq

/-- The string value of each enum member. -/
def TaskStatus.value : TaskStatus → String
  | .pending => "pending"
  | .routing => "routing"
  | .executing => "executing"
  | .done => "done"

/-- `TaskStatus(raw)` value lookup as used by `Task.from_row`; `none`
models the `ValueError` raised for an unknown value. -/
def TaskStatus.ofValue (s : String) : Option TaskStatus :=
  if s = "pending" then some .pending
  else if s = "routing" then some .routing
  else if s = "executing" then some .executing
  else if s = "done" then some .done
  else none

/-- C2 (code bug): the task status set declared by the code is
`{pending, routing, executing, done}` — no member carries the value
`failed`, and reading a row whose status column holds `failed` raises.
Consequently the failure path of `Engine._handle`, which evaluates
`TaskStatus.failed`, raises `AttributeError` instead of moving the task to
a terminal `failed` status with its error persisted. -/
theorem C2_no_failed_status :
    (∀ s : TaskStatus, TaskStatus.value s ≠ "failed")
    ∧ TaskStatus.ofValue ("failed") = none := by
  constructor
  · intro s
    cases s <;> decide
  · decide

/-- `Engine._spawn_brain(tool_name, params)` after the brain has built
`cmd_str`: the command is wrapped as `nohup {cmd_str} &` and handed
unconditionally to `asyncio.create_subprocess_exec("bash", "-c", ...)`.
`some c` means a subprocess is created with command line `c`; no code path
of `_spawn_brain` returns without spawning, and `check_spawn_cmd` is never
invoked on this path (nor anywhere else in `engine.py`). -/
def spawn_brain (cmd_str : String) : Option String :=
  some ("nohup " ++ cmd_str ++ " &")

/-- A handoff command a brain can build (`ClaudeCodeBrain.get_spawn_cmd`
embeds the task parameters in the prompt, so `$(whoami)` in a parameter
value reaches the command string): the sanitizer rejects it. -/
def badBrainCmd : String :=
  String.mk ("claude --print ".toList ++ [squote] ++ "echo $(whoami)".toList ++ [squote])

/-- C1 (code bug): `_spawn_brain` spawns every brain-built command without
consulting the Command Sanitizer — in particular a command the sanitizer
rejects (`ok=false`) is still spawned, contradicting the sanitizer module's
own contract ("called before every asyncio.create_subprocess_exec"). -/
theorem C1_spawn_bypasses_sanitizer :
    (∀ cmd : String, spawn_brain cmd = some ("nohup " ++ cmd ++ " &"))
    ∧ (check_spawn_cmd badBrainCmd).ok = false
    ∧ spawn_brain badBrainCmd ≠ none := by
  refine ⟨fun cmd => rfl, by decide, by simp [spawn_brain]⟩

end PieBrain
